import Mathlib

/-!
Shallow embedding of the back end of the TestExprLang compiler/interpreter
(binding, bytecode lowering, bytecode execution, plus the recursive-descent
expression parser needed for the end-to-end claims).

Conventions of the embedding:
* Source locations, which the Rust code threads through every node purely for
  diagnostics, are omitted; compile errors are modelled by an inductive that
  carries exactly the data interpolated into each Rust error message.
* `Rc`/`Weak` shared references are modelled by plain values: runtime cells are
  immutable once created (nothing in `execute.rs` mutates a cell's payload), so
  sharing is observationally irrelevant and value semantics is faithful.
* `HashMap<String, _>` is modelled as an association list; the binder only ever
  inserts a key after checking it is absent, and the executor's `vars.insert`
  replaces, which a cons models faithfully for `lookup`.
* Loops become fuel-indexed recursion where needed (executor, parser); the
  binder and the lowering pass are structurally recursive.
-/

/-- Token kinds, from `token.rs` (`TokenKind`).  Token payloads other than the
name text and the integer value (locations, lengths) are omitted. -/
inductive TokenKind where
  | endOfFile
  | newline
  | name (s : String)
  | integer (value : Nat)     -- u128
  | exportKw
  | letKw
  | openParenthesis
  | closeParenthesis
  | openBrace
  | closeBrace
  | leftArrow
  | rightArrow
  | comma
  | plus
  | minus
  | asterisk
  | slash
  | exclamationMark
  | equalEqual
  | exclamationMarkEqual
  | lessThan
  | greaterThan
  | lessThanEqual
  | greaterThanEqual
  | equal
  | plusEqual
  | minusEqual
  | asteriskEqual
  | slashEqual
deriving DecidableEq, Repr

/-- Structural types, from `types.rs` (`Type`); `BlockType`'s map of exported
names and `ProcType`'s fields are inlined into the constructors.  The Rust
`BlockType` holds a `HashMap`; we hold the entries as a list in insertion
order (within one successfully bound block all export names are distinct, so
the map and the list carry the same bindings). -/
inductive Ty where
  | void
  | type
  | integer
  | block (exportedTypes : List (String × Ty))
  | proc (parameterTypes : List Ty) (returnType : Ty)

mutual

/-- Structural equality of types (`PartialEq` derived on `Type` in
`types.rs`).  Rust compares `BlockType`'s `HashMap` as an unordered map; our
lists are compared in order.  The binder builds every block type along a
single code path (export encounter order) and no operator/parameter table
mentions block types, so no reachable comparison distinguishes the two. -/
def Ty.beq : Ty → Ty → Bool
  | .void, .void => true
  | .type, .type => true
  | .integer, .integer => true
  | .block xs, .block ys => Ty.beqFields xs ys
  | .proc ps r, .proc qs u => Ty.beqList ps qs && Ty.beq r u
  | _, _ => false

/-- Field-wise equality of `Vec<Type>` (parameter lists). -/
def Ty.beqList : List Ty → List Ty → Bool
  | [], [] => true
  | t :: ts, u :: us => Ty.beq t u && Ty.beqList ts us
  | _, _ => false

/-- Entry-wise equality of exported-type maps. -/
def Ty.beqFields : List (String × Ty) → List (String × Ty) → Bool
  | [], [] => true
  | (n, t) :: xs, (m, u) :: ys => n == m && Ty.beq t u && Ty.beqFields xs ys
  | _, _ => false

end

/-- From `bound_nodes.rs` (`UnaryOperatorKind`). -/
inductive UnaryOperatorKind where
  | identity
  | negation
deriving DecidableEq, Repr

/-- From `bound_nodes.rs` (`UnaryOperator`). -/
structure UnaryOperator where
  kind : UnaryOperatorKind
  operand : Ty
  result : Ty

/-- From `bound_nodes.rs` (`BinaryOperatorKind`). -/
inductive BinaryOperatorKind where
  | addition
  | subtraction
  | multiplication
  | division
deriving DecidableEq, Repr

/-- From `bound_nodes.rs` (`BinaryOperator`). -/
structure BinaryOperator where
  kind : BinaryOperatorKind
  left : Ty
  right : Ty
  result : Ty

/-- Syntax tree, from `ast.rs` (`Ast`).  The `name_token`/`integer_token`
fields are replaced by the name text / integer value the binder extracts from
them (the other token fields are purely positional). -/
inductive Ast where
  | file (expressions : List Ast)
  | block (expressions : List Ast)
  | export_ (name : String) (value : Ast)
  | let_ (name : String) (value : Option Ast)
  | unary (operatorToken : TokenKind) (operand : Ast)
  | binary (left : Ast) (operatorToken : TokenKind) (right : Ast)
  | name (name : String)
  | integer (value : Nat)    -- u128 payload of the Integer token
  | call (operand : Ast) (arguments : List Ast)

/-- Bound (semantic) tree, from `bound_nodes.rs` (`BoundNode`).  A
`BoundName`'s `resolved_expression : Weak<BoundNode>` is modelled by storing
the resolved node itself (the referent is fully built before it is entered in
the scope map, and is immutable afterwards). -/
inductive BoundNode where
  | block (expressions : List BoundNode)
      (exportedExpressions : List (String × BoundNode)) (blockType : Ty)
  | export_ (name : String) (value : BoundNode)
  | let_ (name : String) (value : Option BoundNode)
  | unary (operator : UnaryOperator) (operand : BoundNode)
  | binary (left : BoundNode) (operator : BinaryOperator) (right : BoundNode)
  | name (name : String) (resolvedExpression : BoundNode)
  | integer (value : Nat)
  | call (operand : BoundNode) (arguments : List BoundNode) (procType : Ty)
  | printInteger

/-- The `get_type` query of `bound_nodes.rs` (`BoundNodeTrait::get_type`,
one arm per node kind). -/
def BoundNode.getType : BoundNode → Ty
  | .block _ _ blockType => blockType
  | .export_ _ value => value.getType
  | .let_ _ (some value) => value.getType
  | .let_ _ none => .void
  | .unary operator _ => operator.result
  | .binary _ operator _ => operator.result
  | .name _ resolved => resolved.getType
  | .integer _ => .integer
  | .call _ _ procType => procType
  | .printInteger => .proc [.integer] .void

/-- Compile errors, from `binding.rs`.  Each constructor corresponds to one
`CompileError` construction site and carries the data interpolated into its
message (locations and note text are omitted). -/
inductive CompileError where
  /-- Rust message: name is already defined (export/let collision). -/
  | duplicateDefinition (name : String)
  /-- Rust message: unable to find unary operator for the operand type. -/
  | unaryOperatorNotFound (op : TokenKind) (operand : Ty)
  /-- Rust message: unable to find binary operator for the operand types. -/
  | binaryOperatorNotFound (op : TokenKind) (left right : Ty)
  /-- Rust message: unable to find the name. -/
  | undefinedName (name : String)
  /-- Rust message: integer is too big for a 64 bit signed integer. -/
  | integerTooLarge (value : Nat)
  /-- Rust message: cannot call a non procedure. -/
  | notCallable (ty : Ty)
  /-- Rust message: invalid number of arguments for procedure, expected vs got. -/
  | arityMismatch (expected actual : Nat)
  /-- Rust message: wrong argument type for procedure, expected vs got. -/
  | argumentTypeMismatch (expected actual : Ty)

/-- The scope map `HashMap<String, Weak<BoundNode>>` threaded through
`binding.rs`, as an association list (keys are distinct: the binder checks
for absence before every insert). -/
abbrev Scope := List (String × BoundNode)

/-- The Identity entry of `UNARY_OPERATORS` in `binding.rs`. -/
def identityOperator : UnaryOperator :=
  { kind := .identity, operand := .integer, result := .integer }

/-- The Negation entry of `UNARY_OPERATORS` in `binding.rs`. -/
def negationOperator : UnaryOperator :=
  { kind := .negation, operand := .integer, result := .integer }

/-- `UNARY_OPERATORS` from `binding.rs`. -/
def UNARY_OPERATORS : List (TokenKind × UnaryOperator) :=
  [(.plus, identityOperator), (.minus, negationOperator)]

/-- The Addition entry of `BINARY_OPERATORS` in `binding.rs`. -/
def additionOperator : BinaryOperator :=
  { kind := .addition, left := .integer, right := .integer, result := .integer }

/-- The Subtraction entry of `BINARY_OPERATORS` in `binding.rs`. -/
def subtractionOperator : BinaryOperator :=
  { kind := .subtraction, left := .integer, right := .integer, result := .integer }

/-- The Multiplication entry of `BINARY_OPERATORS` in `binding.rs`. -/
def multiplicationOperator : BinaryOperator :=
  { kind := .multiplication, left := .integer, right := .integer, result := .integer }

/-- The Division entry of `BINARY_OPERATORS` in `binding.rs`. -/
def divisionOperator : BinaryOperator :=
  { kind := .division, left := .integer, right := .integer, result := .integer }

/-- `BINARY_OPERATORS` from `binding.rs`. -/
def BINARY_OPERATORS : List (TokenKind × BinaryOperator) :=
  [(.plus, additionOperator), (.minus, subtractionOperator),
   (.asterisk, multiplicationOperator), (.slash, divisionOperator)]

/-- The first-match scan over `UNARY_OPERATORS` in `AstUnary::bind`. -/
def findUnaryOperator (op : TokenKind) (operand : Ty) : Option UnaryOperator :=
  (UNARY_OPERATORS.find? fun p =>
    p.1 == op && Ty.beq p.2.operand operand).map (·.2)

/-- The first-match scan over `BINARY_OPERATORS` in `AstBinary::bind`. -/
def findBinaryOperator (op : TokenKind) (left right : Ty) : Option BinaryOperator :=
  (BINARY_OPERATORS.find? fun p =>
    p.1 == op && Ty.beq p.2.left left && Ty.beq p.2.right right).map (·.2)

/-- `i64::MAX`, the ceiling checked by `AstInteger::bind`. -/
def i64Max : Nat := 2 ^ 63 - 1

mutual

/-- The binder, from `binding.rs` (`BindingTrait::bind` / `bind_ast`): one arm
per `Ast` variant.  The `&mut HashMap` threading becomes explicit
state-passing; `names.clone()` at file/block entry becomes passing the current
scope to the children and returning the untouched original. -/
def bindAst : Ast → Scope → Except CompileError (BoundNode × Scope)
  | .file expressions, names => do
      -- `AstFile::bind`: children are bound against `new_names`, a clone of
      -- `names`; the parent map is returned unchanged.
      let (bound, exported, _) ← bindExpressions expressions names
      let exportedTypes := exported.map fun (n, e) => (n, e.getType)
      .ok (.block bound exported (.block exportedTypes), names)
  | .block expressions, names => do
      -- `AstBlock::bind`: identical to the file case.
      let (bound, exported, _) ← bindExpressions expressions names
      let exportedTypes := exported.map fun (n, e) => (n, e.getType)
      .ok (.block bound exported (.block exportedTypes), names)
  | .export_ name value, names => do
      -- `AstExport::bind`: bind the value, then check the current map.
      let (boundValue, names₁) ← bindAst value names
      match names₁.lookup name with
      | some _ => .error (.duplicateDefinition name)
      | none =>
          let node := BoundNode.export_ name boundValue
          .ok (node, (name, node) :: names₁)
  | .let_ name value, names => do
      -- `AstLet::bind`: bind the value if present, then check the current map.
      let (boundValue, names₁) ←
        match value with
        | some v => do
            let (b, names₁) ← bindAst v names
            pure (some b, names₁)
        | none => pure (none, names)
      match names₁.lookup name with
      | some _ => .error (.duplicateDefinition name)
      | none =>
          let node := BoundNode.let_ name boundValue
          .ok (node, (name, node) :: names₁)
  | .unary operatorToken operand, names => do
      -- `AstUnary::bind`.
      let (boundOperand, names₁) ← bindAst operand names
      match findUnaryOperator operatorToken boundOperand.getType with
      | some operator => .ok (.unary operator boundOperand, names₁)
      | none => .error (.unaryOperatorNotFound operatorToken boundOperand.getType)
  | .binary left operatorToken right, names => do
      -- `AstBinary::bind`.
      let (boundLeft, names₁) ← bindAst left names
      let (boundRight, names₂) ← bindAst right names₁
      match findBinaryOperator operatorToken boundLeft.getType boundRight.getType with
      | some operator => .ok (.binary boundLeft operator boundRight, names₂)
      | none =>
          .error (.binaryOperatorNotFound operatorToken
            boundLeft.getType boundRight.getType)
  | .name n, names =>
      -- `AstName::bind`.
      match names.lookup n with
      | some expression => .ok (.name n expression, names)
      | none => .error (.undefinedName n)
  | .integer value, names =>
      -- `AstInteger::bind`: reject values above `i64::MAX`.
      if value > i64Max then .error (.integerTooLarge value)
      else .ok (.integer value, names)
  | .call operand arguments, names => do
      -- `AstCall::bind`.
      let (boundOperand, names₁) ← bindAst operand names
      match boundOperand.getType with
      | .proc parameterTypes returnType =>
          if parameterTypes.length ≠ arguments.length then
            .error (.arityMismatch parameterTypes.length arguments.length)
          else do
            let (boundArguments, names₂) ←
              bindArguments arguments parameterTypes names₁
            .ok (.call boundOperand boundArguments
                  (.proc parameterTypes returnType), names₂)
      | t => .error (.notCallable t)

/-- The child loop shared by `AstFile::bind` and `AstBlock::bind`: bind each
expression in order against the threaded map and collect the `Export`
outcomes (name, bound node) in encounter order. -/
def bindExpressions :
    List Ast → Scope →
    Except CompileError (List BoundNode × List (String × BoundNode) × Scope)
  | [], names => .ok ([], [], names)
  | e :: rest, names => do
      let (bound, names₁) ← bindAst e names
      let (boundRest, exportedRest, names₂) ← bindExpressions rest names₁
      match bound with
      | .export_ n _ => .ok (bound :: boundRest, (n, bound) :: exportedRest, names₂)
      | _ => .ok (bound :: boundRest, exportedRest, names₂)

/-- The argument loop of `AstCall::bind`: bind each argument left-to-right,
then compare its type with the corresponding parameter type; the first
mismatch aborts.  The Rust loop indexes `parameter_types[i]`; the caller has
already checked the two lists have equal length, so passing the parameter
list alongside is faithful (the leftover-parameters case is unreachable from
`bindAst`). -/
def bindArguments :
    List Ast → List Ty → Scope →
    Except CompileError (List BoundNode × Scope)
  | [], _, names => .ok ([], names)
  | a :: rest, parameterTypes, names => do
      let (bound, names₁) ← bindAst a names
      match parameterTypes with
      | p :: ps =>
          if Ty.beq bound.getType p then do
            let (boundRest, names₂) ← bindArguments rest ps names₁
            .ok (bound :: boundRest, names₂)
          else .error (.argumentTypeMismatch p bound.getType)
      | [] => .error (.arityMismatch 0 0)  -- unreachable: lengths pre-checked

end

/-! ## Bytecode and runtime values (`bytecode.rs`) -/

mutual

/-- Instructions, from `bytecode.rs` (`Bytecode`).  One extra constructor,
`negateInteger`, is present here although the Rust enum does not declare it:
`BoundUnary::compile` in `bytecode_compilation.rs` emits
`Bytecode::NegateInteger`, a variant that exists nowhere in `bytecode.rs` and
has no arm in `execute.rs` — the crate does not type-check as written.  We
declare the constructor so the lowering pass can be transcribed as written;
the executor, which has no arm for it, treats it as a fatal fault. -/
inductive Bytecode where
  | exit
  | push (value : BytecodeValue)
  | pop
  | dup
  | call (argumentCount : Nat)
  | ret
  | load (name : String)
  | store (name : String)
  | addInteger
  | subInteger
  | mulInteger
  | divInteger
  | negateInteger
  | printInteger

/-- Runtime values, from `bytecode.rs` (`BytecodeValue`).  The `Rc<RefCell<_>>`
cells of the executor are immutable once created, so plain values model them
faithfully.  Integers are `i64`; we carry an unbounded `Int` and apply 64-bit
wrapping exactly where the Rust code computes with `i64`. -/
inductive BytecodeValue where
  | void
  | int (n : Int)
  | proc (code : List Bytecode)
  | block (fields : List (String × BytecodeValue))

end

/-! ## Bytecode lowering (`bytecode_compilation.rs`) -/

/-- The `u128 as i64` cast in `BoundInteger::compile` (and the general
reduction of an integer to 64-bit two's-complement range). -/
def wrap64 (n : Int) : Int := (n + 2 ^ 63) % 2 ^ 64 - 2 ^ 63

mutual

/-- The lowering pass, from `bytecode_compilation.rs`
(`Compilable::compile` / `compile_bytecode`): one arm per bound node.  The
`&mut Vec<Bytecode>` output parameter becomes a returned list (instructions
are append-only, so appends become list concatenation in emission order). -/
def compileBytecode : BoundNode → List Bytecode
  | .block expressions _ _ =>
      -- `BoundBlock::compile`: lower each child, then discard its result.
      compileExpressions expressions
  | .export_ name value =>
      -- `BoundExport::compile`.
      compileBytecode value ++ [.dup, .store name]
  | .let_ name (some value) =>
      -- `BoundLet::compile`, value present.
      compileBytecode value ++ [.dup, .store name]
  | .let_ name none =>
      -- `BoundLet::compile`, value absent: push Void, store — note no `Dup`.
      [.push .void, .store name]
  | .unary operator operand =>
      compileBytecode operand ++
        (match operator.kind with
         | .identity => []
         | .negation => [.negateInteger])
  | .binary left operator right =>
      compileBytecode left ++ compileBytecode right ++
        [match operator.kind with
         | .addition => .addInteger
         | .subtraction => .subInteger
         | .multiplication => .mulInteger
         | .division => .divInteger]
  | .name n _ => [.load n]
  | .integer value => [.push (.int (wrap64 value))]
  | .call operand arguments _ =>
      compileBytecode operand ++ compileArguments arguments ++
        [.call arguments.length]
  | .printInteger =>
      -- `BoundPrintInteger::compile`: push an embedded constant procedure.
      [.push (.proc [.printInteger, .ret])]

/-- The child loop of `BoundBlock::compile`: each child's code followed by a
`Pop` discarding its result. -/
def compileExpressions : List BoundNode → List Bytecode
  | [] => []
  | e :: rest => compileBytecode e ++ [.pop] ++ compileExpressions rest

/-- The argument loop of `BoundCall::compile`: arguments lowered
left-to-right. -/
def compileArguments : List BoundNode → List Bytecode
  | [] => []
  | a :: rest => compileBytecode a ++ compileArguments rest

end

/-! ## The executor (`execute.rs`) -/

/-- Outcome of one invocation of `execute_bytecode`. -/
inductive ExecResult where
  /-- The invocation hit `Exit` and returned `None`; the field is the output
  printed so far (one integer per `println!`). -/
  | exit (out : List Int)
  /-- The invocation hit `Return` and returned `Some(cell)`. -/
  | ret (value : BytecodeValue) (out : List Int)
  /-- A Rust panic: `unwrap` on an empty stack or missing name, a non-integer
  operand to an arithmetic/print instruction (`unwrap_integer`), a
  non-procedure callee (`unwrap_procedure`), a callee that exited instead of
  returning (`unwrap` of `None`), instruction-pointer overrun, division by
  zero or `i64` division overflow, or the nonexistent negate instruction. -/
  | fault
  /-- Fuel exhausted (an artifact of the embedding, not of the program). -/
  | outOfFuel

/-- The variable environment `vars: HashMap<String, Rc<RefCell<_>>>`, private
to one invocation.  `insert` replaces; a cons shadows, which `lookup` treats
identically. -/
abbrev Vars := List (String × BytecodeValue)

/-- The `new_stack` built by the `Call` arm of `execute.rs`: the Rust loop
pops `n` cells one at a time off the caller's stack, pushing each onto
`new_stack`, and passes `new_stack` to the recursive `execute_bytecode` call
unchanged.  With the stack viewed top-at-head, the resulting vector — read
top-at-head as the callee's initial stack — is `(stack.take n).reverse`:
popping collects `stack.take n` in pop order (most recent first), and
`Vec::push` re-stacks them so the LAST-popped (first-pushed) cell ends up on
top. -/
def calleeInitialStack (n : Nat) (stack : List BytecodeValue) :
    List BytecodeValue :=
  (stack.take n).reverse

/-- Modelled from the spec: the callee's initial stack as the specification
describes it — the collected list (`stack.take n`, pop order) "must be
un-reversed before becoming the callee's initial stack", which read
top-at-head is `(stack.take n).reverse.reverse = stack.take n`.  This is the
claimed behavior; the executor actually uses `calleeInitialStack`. -/
def specCalleeInitialStack (n : Nat) (stack : List BytecodeValue) :
    List BytecodeValue :=
  stack.take n

/-- The instruction loop of `execute_bytecode` in `execute.rs`, fueled (one
unit per executed instruction).  The operand stack is a list with its head as
the top of the Rust `Vec` (so `Vec::push`/`pop` are cons/uncons and
`Vec::insert(0, v)` appends `[v]`).  In the `Call` arm the recursive
`execute_bytecode` call is inlined (sentinel appended, fresh empty
environment), receiving `calleeInitialStack`. -/
def executeLoop :
    Nat → List Bytecode → Nat → List BytecodeValue → Vars → List Int →
    ExecResult
  | 0, _, _, _, _, _ => .outOfFuel
  | fuel + 1, code, ip, stack, vars, out =>
    match code.get? ip with
    | none => .fault  -- `bytecode[ip]` out of bounds: fell off the end
    | some instr =>
      match instr with
      | .exit => .exit out
      | .push v => executeLoop fuel code (ip + 1) (v :: stack) vars out
      | .pop =>
          match stack with
          | [] => .fault
          | _ :: rest => executeLoop fuel code (ip + 1) rest vars out
      | .dup =>
          match stack with
          | [] => .fault
          | v :: rest => executeLoop fuel code (ip + 1) (v :: v :: rest) vars out
      | .call n =>
          if stack.length < n then .fault  -- ran out of cells while popping args
          else
            match stack.drop n with
            | [] => .fault  -- no callee cell beneath the arguments
            | callee :: rest =>
              match callee with
              | .proc procedureCode =>
                  match executeLoop fuel procedureCode 0
                      (calleeInitialStack n stack ++ [.void]) [] out with
                  | .ret v out₁ => executeLoop fuel code (ip + 1) (v :: rest) vars out₁
                  | .exit _ => .fault  -- `.unwrap()` of `None`
                  | .fault => .fault
                  | .outOfFuel => .outOfFuel
              | _ => .fault  -- `unwrap_procedure` on a non-procedure
      | .ret =>
          match stack with
          | [] => .fault
          | v :: _ => .ret v out
      | .load name =>
          match vars.lookup name with
          | none => .fault
          | some v => executeLoop fuel code (ip + 1) (v :: stack) vars out
      | .store name =>
          match stack with
          | [] => .fault
          | v :: rest => executeLoop fuel code (ip + 1) rest ((name, v) :: vars) out
      | .addInteger =>
          match stack with
          | .int b :: .int a :: rest =>
              executeLoop fuel code (ip + 1) (.int (wrap64 (a + b)) :: rest) vars out
          | _ => .fault
      | .subInteger =>
          match stack with
          | .int b :: .int a :: rest =>
              executeLoop fuel code (ip + 1) (.int (wrap64 (a - b)) :: rest) vars out
          | _ => .fault
      | .mulInteger =>
          match stack with
          | .int b :: .int a :: rest =>
              executeLoop fuel code (ip + 1) (.int (wrap64 (a * b)) :: rest) vars out
          | _ => .fault
      | .divInteger =>
          match stack with
          | .int b :: .int a :: rest =>
              -- Rust `i64` division panics on a zero divisor (and on the
              -- overflowing `i64::MIN / -1`); otherwise it truncates toward
              -- zero, which `Int.tdiv` matches.
              if b = 0 ∨ (a = -(2 ^ 63) ∧ b = -1) then .fault
              else executeLoop fuel code (ip + 1) (.int (Int.tdiv a b) :: rest) vars out
          | _ => .fault
      | .negateInteger => .fault  -- no such arm in `execute.rs` (see `Bytecode`)
      | .printInteger =>
          match stack with
          | .int n :: rest => executeLoop fuel code (ip + 1) rest vars (out ++ [n])
          | _ => .fault

/-- `execute_bytecode` from `execute.rs`: insert one `Void` cell at the bottom
of the received stack (`stack.insert(0, ...)`), start with a fresh empty
environment, and run the loop from instruction 0. -/
def executeBytecode (fuel : Nat) (code : List Bytecode)
    (stack : List BytecodeValue) (out : List Int) : ExecResult :=
  executeLoop fuel code 0 (stack ++ [.void]) [] out

/-! ## The `run` pipeline (`main.rs`) -/

/-- The initial name map of the `run` (and `dump_ir`) command: the built-in
`print_integer` node. -/
def initialNames : Scope := [("print_integer", .printInteger)]

/-- The `run` command of `main.rs`: bind the file against `initialNames`,
emit the `print_integer` procedure and a store binding it, lower the bound
file, append `Exit`, and execute from an empty stack.  A `.ok (.exit out)`
result models a process that printed `out` (one integer per line) and
terminated with status 0; a compile error or a `.fault` terminates with a
non-zero status. -/
def runProgram (fuel : Nat) (file : Ast) : Except CompileError ExecResult := do
  let (bound, _) ← bindAst file initialNames
  let bytecode :=
    compileBytecode .printInteger ++ [.store "print_integer"] ++
    compileBytecode bound ++ [.exit]
  .ok (executeBytecode fuel bytecode [] [])

/-! ## The expression parser (`parsing.rs`)

The lexer is modelled as the list of token kinds it would produce; at the end
of input it yields `EndOfFile` forever (`lexer.rs`).  Parse errors carry no
payload here (`none`); their messages are diagnostics of the excluded front
end. -/

/-- Remaining token stream. -/
abbrev Toks := List TokenKind

/-- `Lexer::peek_kind`. -/
def peekKind (ts : Toks) : TokenKind := ts.headD .endOfFile

/-- `Lexer::next_token` (kind only). -/
def nextToken (ts : Toks) : TokenKind × Toks := (ts.headD .endOfFile, ts.tail)

/-- `allow_newline` from `parsing.rs`. -/
def allowNewline (ts : Toks) : Toks :=
  if peekKind ts = .newline then ts.tail else ts

/-- The skip-newlines loops at the top of the `parse_file` / `parse_block`
iteration bodies. -/
def skipNewlines : Toks → Toks
  | .newline :: rest => skipNewlines rest
  | ts => ts

/-- `get_unary_precedence` from `parsing.rs`. -/
def getUnaryPrecedence : TokenKind → Nat
  | .plus | .minus | .exclamationMark => 4
  | _ => 0

/-- `get_binary_precedence` from `parsing.rs`. -/
def getBinaryPrecedence : TokenKind → Nat
  | .asterisk | .slash => 3
  | .plus | .minus => 2
  | .equalEqual | .exclamationMarkEqual | .lessThan | .greaterThan
  | .lessThanEqual | .greaterThanEqual => 1
  | _ => 0

mutual

/-- `parse_binary_expression` from `parsing.rs`: optional unary prefix, then
the postfix/binary main loop. -/
def parseBinaryExpression (fuel : Nat) (parentPrecedence : Nat) (ts : Toks) :
    Option (Ast × Toks) :=
  match fuel with
  | 0 => none
  | fuel + 1 => do
    let (left, ts₁) ←
      if getUnaryPrecedence (peekKind ts) > 0 then do
        let (operatorToken, ts₁) := nextToken ts
        let ts₂ := allowNewline ts₁
        let (operand, ts₃) ←
          parseBinaryExpression fuel (getUnaryPrecedence operatorToken) ts₂
        some (Ast.unary operatorToken operand, ts₃)
      else parsePrimaryExpression fuel ts
    parseMainLoop fuel parentPrecedence left ts₁

/-- The labelled main loop of `parse_binary_expression`: absorb call
parentheses, then climb while the next binary operator binds tighter than the
parent. -/
def parseMainLoop (fuel : Nat) (parentPrecedence : Nat) (left : Ast)
    (ts : Toks) : Option (Ast × Toks) :=
  match fuel with
  | 0 => none
  | fuel + 1 => do
    let (left₁, ts₁) ← parseCallLoop fuel left ts
    let binaryPrecedence := getBinaryPrecedence (peekKind ts₁)
    if binaryPrecedence ≤ parentPrecedence then some (left₁, ts₁)
    else do
      let (operatorToken, ts₂) := nextToken ts₁
      let ts₃ := allowNewline ts₂
      let (right, ts₄) ← parseBinaryExpression fuel binaryPrecedence ts₃
      parseMainLoop fuel parentPrecedence (.binary left₁ operatorToken right) ts₄

/-- The inner `while peek == OpenParenthesis` loop: each iteration parses one
argument list and wraps `left` in a call node. -/
def parseCallLoop (fuel : Nat) (left : Ast) (ts : Toks) :
    Option (Ast × Toks) :=
  match fuel with
  | 0 => none
  | fuel + 1 =>
    if peekKind ts = .openParenthesis then do
      let ts₁ := (nextToken ts).2
      let ts₂ := allowNewline ts₁
      let (arguments, ts₃) ← parseCallArguments fuel true ts₂
      let (close, ts₄) := nextToken ts₃
      if close = .closeParenthesis then
        parseCallLoop fuel (.call left arguments) ts₄
      else none
    else some (left, ts)

/-- The argument-collection loop inside the call loop (`first` distinguishes
whether a separating comma is required; a comma directly followed by the
closing parenthesis ends the list). -/
def parseCallArguments (fuel : Nat) (first : Bool) (ts : Toks) :
    Option (List Ast × Toks) :=
  match fuel with
  | 0 => none
  | fuel + 1 =>
    if peekKind ts ≠ .closeParenthesis ∧ peekKind ts ≠ .endOfFile then
      if first then do
        let (argument, ts₁) ← parseBinaryExpression fuel 0 ts
        let (rest, ts₂) ← parseCallArguments fuel false ts₁
        some (argument :: rest, ts₂)
      else do
        let (separator, ts₁) := nextToken ts
        if separator = .comma then
          let ts₂ := allowNewline ts₁
          if peekKind ts₂ = .closeParenthesis then some ([], ts₂)
          else do
            let (argument, ts₃) ← parseBinaryExpression fuel 0 ts₂
            let (rest, ts₄) ← parseCallArguments fuel false ts₃
            some (argument :: rest, ts₄)
        else none
    else some ([], ts)

/-- `parse_primary_expression` from `parsing.rs`. -/
def parsePrimaryExpression (fuel : Nat) (ts : Toks) : Option (Ast × Toks) :=
  match fuel with
  | 0 => none
  | fuel + 1 =>
    match peekKind ts with
    | .name s => some (.name s, ts.tail)
    | .integer v => some (.integer v, ts.tail)
    | .openBrace => do
        let (expressions, ts₁) ← parseBlock fuel ts
        some (.block expressions, ts₁)
    | .openParenthesis => do
        let ts₁ := ts.tail
        let (expression, ts₂) ← parseBinaryExpression fuel 0 ts₁
        let (close, ts₃) := nextToken ts₂
        if close = .closeParenthesis then some (expression, ts₃) else none
    | .exportKw =>
        let ts₁ := ts.tail
        let (nameToken, ts₂) := nextToken ts₁
        match nameToken with
        | .name s =>
            let (equalsToken, ts₃) := nextToken ts₂
            if equalsToken = .equal then do
              let ts₄ := allowNewline ts₃
              let (value, ts₅) ← parseBinaryExpression fuel 0 ts₄
              some (.export_ s value, ts₅)
            else none
        | _ => none
    | .letKw =>
        let ts₁ := ts.tail
        let (nameToken, ts₂) := nextToken ts₁
        match nameToken with
        | .name s =>
            if peekKind ts₂ = .equal then do
              let ts₃ := allowNewline ts₂.tail
              let (value, ts₄) ← parseBinaryExpression fuel 0 ts₃
              some (.let_ s (some value), ts₄)
            else some (.let_ s none, ts₂)
        | _ => none
    | _ => none

/-- `parse_block` from `parsing.rs`: consume the opening brace, then the
expression loop terminated by the closing brace. -/
def parseBlock (fuel : Nat) (ts : Toks) : Option (List Ast × Toks) :=
  match fuel with
  | 0 => none
  | fuel + 1 =>
    let (openTok, ts₁) := nextToken ts
    if openTok = .openBrace then parseBlockExpressions fuel ts₁ else none

/-- The expression loop of `parse_block` (newline-separated expressions until
the closing brace). -/
def parseBlockExpressions (fuel : Nat) (ts : Toks) :
    Option (List Ast × Toks) :=
  match fuel with
  | 0 => none
  | fuel + 1 =>
    if peekKind ts ≠ .closeBrace ∧ peekKind ts ≠ .endOfFile then do
      let ts₁ := skipNewlines ts
      let (expression, ts₂) ← parseBinaryExpression fuel 0 ts₁
      if peekKind ts₂ ≠ .closeBrace ∧ peekKind ts₂ ≠ .endOfFile then
        let (nl, ts₃) := nextToken ts₂
        if nl = .newline then do
          let (rest, ts₄) ← parseBlockExpressions fuel ts₃
          some (expression :: rest, ts₄)
        else none
      else do
        let (rest, ts₃) ← parseBlockExpressions fuel ts₂
        some (expression :: rest, ts₃)
    else
      let (close, ts₁) := nextToken ts
      if close = .closeBrace then some ([], ts₁) else none

end

/-- The expression loop of `parse_file` (newline-separated expressions until
the end of file, whose token is consumed at the end). -/
def parseFileExpressions (fuel : Nat) (ts : Toks) :
    Option (List Ast × Toks) :=
  match fuel with
  | 0 => none
  | fuel + 1 =>
    if peekKind ts ≠ .endOfFile then do
      let ts₁ := skipNewlines ts
      let (expression, ts₂) ← parseBinaryExpression fuel 0 ts₁
      if peekKind ts₂ ≠ .endOfFile then
        let (nl, ts₃) := nextToken ts₂
        if nl = .newline then do
          let (rest, ts₄) ← parseFileExpressions fuel ts₃
          some (expression :: rest, ts₄)
        else none
      else do
        let (rest, ts₃) ← parseFileExpressions fuel ts₂
        some (expression :: rest, ts₃)
    else some ([], ts.tail)

/-- `parse_expression` from `parsing.rs`. -/
def parseExpression (fuel : Nat) (ts : Toks) : Option (Ast × Toks) :=
  parseBinaryExpression fuel 0 ts

/-- `parse_file` from `parsing.rs`, as the file node the binder receives
(`Ast::File` in `main.rs`). -/
def parseFile (fuel : Nat) (ts : Toks) : Option Ast :=
  (parseFileExpressions fuel ts).map fun (expressions, _) => .file expressions

/-! ## Claims -/

/-- C2: the claim says every lowered Export/Let — with or without a value —
pushes its value (or Void), duplicates the top of stack, and stores, for a
net stack effect of +1 with one copy left as the statement's own result.
The code agrees for Export and for Let-with-value, but `BoundLet::compile`
for a value-less Let emits only `Push Void; Store` — no `Dup`, net stack
effect 0, nothing left on the stack.  The `Pop` that `BoundBlock::compile`
emits after every child then removes an unrelated cell, and the two-line
program `let a` / `let b` crashes the interpreter with a stack-underflow
panic, while the same program with values runs cleanly. -/
theorem C2_valueless_let_breaks_stack_discipline :
    compileBytecode (.export_ "a" (.integer 1)) =
      [.push (.int 1), .dup, .store "a"]
    ∧ compileBytecode (.let_ "a" (some (.integer 1))) =
      [.push (.int 1), .dup, .store "a"]
    ∧ compileBytecode (.let_ "a" none) = [.push .void, .store "a"]
    ∧ runProgram 60 (.file [.let_ "a" none, .let_ "b" none]) = .ok .fault
    ∧ runProgram 60 (.file [.let_ "a" (some (.integer 1)),
        .let_ "b" (some (.integer 2))]) = .ok (.exit []) :=
  ⟨rfl, rfl, rfl, rfl, rfl⟩

/-- C4: the claim says Identity lowers to nothing extra (so `+5` evaluates to
5) and Negation lowers to one dedicated negate instruction (so `-5`
evaluates to -5).  The Identity half holds.  For Negation,
`BoundUnary::compile` emits `Bytecode::NegateInteger` — a variant that is
not declared in the `Bytecode` enum of `bytecode.rs` and that `execute.rs`
has no arm for, so the crate does not even type-check as written; completing
the executor with a fatal fault on the unknown instruction, `-5` binds and
lowers but faults instead of evaluating to -5. -/
theorem C4_negate_instruction_missing :
    bindAst (.unary .plus (.integer 5)) [] =
      .ok (.unary identityOperator (.integer 5), [])
    ∧ compileBytecode (.unary identityOperator (.integer 5)) = [.push (.int 5)]
    ∧ executeBytecode 10 [.push (.int 5), .ret] [] [] = .ret (.int 5) []
    ∧ bindAst (.unary .minus (.integer 5)) [] =
      .ok (.unary negationOperator (.integer 5), [])
    ∧ compileBytecode (.unary negationOperator (.integer 5)) =
      [.push (.int 5), .negateInteger]
    ∧ executeBytecode 10 [.push (.int 5), .negateInteger, .ret] [] [] = .fault :=
  ⟨rfl, rfl, rfl, rfl, rfl, rfl⟩

/-- C5: `1 + 2 * 3` parses with multiplication binding tighter than addition,
binds, lowers to the left operand's code, then the right operand's, then the
operator instruction (the order holding for every binary node), and executes
to 7; and the end-to-end program `print_integer(1 + 2 * 3)` prints 7 on its
own line and exits with status 0 (a normal `Exit` with output `[7]`). -/
theorem C5_precedence_and_end_to_end :
    parseExpression 20 [.integer 1, .plus, .integer 2, .asterisk, .integer 3,
      .endOfFile] =
      some (.binary (.integer 1) .plus
        (.binary (.integer 2) .asterisk (.integer 3)), [.endOfFile])
    ∧ bindAst (.binary (.integer 1) .plus
        (.binary (.integer 2) .asterisk (.integer 3))) [] =
      .ok (.binary (.integer 1) additionOperator
        (.binary (.integer 2) multiplicationOperator (.integer 3)), [])
    ∧ (∀ (left : BoundNode) (operator : BinaryOperator) (right : BoundNode),
        compileBytecode (.binary left operator right) =
          compileBytecode left ++ compileBytecode right ++
            [match operator.kind with
             | .addition => .addInteger
             | .subtraction => .subInteger
             | .multiplication => .mulInteger
             | .division => .divInteger])
    ∧ compileBytecode (.binary (.integer 1) additionOperator
        (.binary (.integer 2) multiplicationOperator (.integer 3))) =
      [.push (.int 1), .push (.int 2), .push (.int 3), .mulInteger, .addInteger]
    ∧ executeBytecode 10 [.push (.int 1), .push (.int 2), .push (.int 3),
        .mulInteger, .addInteger, .ret] [] [] = .ret (.int 7) []
    ∧ parseFile 20 [.name "print_integer", .openParenthesis, .integer 1, .plus,
        .integer 2, .asterisk, .integer 3, .closeParenthesis, .endOfFile] =
      some (.file [.call (.name "print_integer")
        [.binary (.integer 1) .plus (.binary (.integer 2) .asterisk (.integer 3))]])
    ∧ runProgram 60 (.file [.call (.name "print_integer")
        [.binary (.integer 1) .plus (.binary (.integer 2) .asterisk (.integer 3))]]) =
      .ok (.exit [7]) :=
  ⟨rfl, rfl, fun _ _ _ => rfl, rfl, rfl, rfl, rfl⟩

/-- C6: executing the integer-division instruction with a zero right operand
is a fatal runtime fault for every left operand, stack remainder, environment
and prior output — never a silent, wrapped or garbage result; and `10 / 0`
binds and lowers successfully, the fault occurring only at execution time. -/
theorem C6_division_by_zero_faults :
    (∀ (a : Int) (rest : List BytecodeValue) (vars : Vars) (out : List Int)
        (fuel : Nat),
      executeLoop (fuel + 1) [.divInteger] 0 (.int 0 :: .int a :: rest) vars out =
        .fault)
    ∧ bindAst (.binary (.integer 10) .slash (.integer 0)) [] =
      .ok (.binary (.integer 10) divisionOperator (.integer 0), [])
    ∧ compileBytecode (.binary (.integer 10) divisionOperator (.integer 0)) =
      [.push (.int 10), .push (.int 0), .divInteger]
    ∧ runProgram 60 (.file [.binary (.integer 10) .slash (.integer 0)]) =
      .ok .fault := by
  refine ⟨fun a rest vars out fuel => ?_, rfl, rfl, rfl⟩
  simp [executeLoop]

/-- C10: every invocation of the executor — the top-level run and every
procedure call alike, both being invocations of `executeBytecode` — inserts
one extra Void cell at the bottom of its operand stack, beneath any
arguments, before the first instruction runs; the built-in print procedure's
body pops and prints its single argument and its `Return` then pops exactly
this sentinel, so every call of `print_integer` returns Void. -/
theorem C10_void_sentinel :
    (∀ (fuel : Nat) (code : List Bytecode) (stack : List BytecodeValue)
        (out : List Int),
      executeBytecode fuel code stack out =
        executeLoop fuel code 0 (stack ++ [.void]) [] out)
    ∧ (∀ (k : Int) (out : List Int) (fuel : Nat),
        executeBytecode (fuel + 2) [.printInteger, .ret] [.int k] out =
          .ret .void (out ++ [k]))
    ∧ (∀ (k : Int),
        executeBytecode 10 [.push (.proc [.printInteger, .ret]), .push (.int k),
          .call 1, .ret] [] [] = .ret .void [k]) := by
  refine ⟨fun fuel code stack out => rfl, fun k out fuel => rfl, fun k => ?_⟩
  simp [executeBytecode, executeLoop, calleeInitialStack]

/-- Reduction of the `Except` monad's bind on a success value (the `?`
operator of the Rust code applied to an `Ok`). -/
theorem exceptBindOk {ε α β : Type} (a : α) (f : α → Except ε β) :
    (Except.ok a >>= f) = f a := rfl

/-- Reduction of the `Except` monad's bind on an error (the `?` operator of
the Rust code propagating an `Err`). -/
theorem exceptBindError {ε α β : Type} (e : ε) (f : α → Except ε β) :
    ((Except.error e : Except ε α) >>= f) = Except.error e := rfl

/-- C8: binding a nested Block hands the children a fresh clone of the
parent's scope map and returns the parent's map untouched: whenever a Block
binds successfully, the resulting scope is exactly the scope from before the
block — every pre-existing entry is unchanged and no name defined inside the
block is present afterwards. -/
theorem C8_block_scope_isolated (expressions : List Ast) (s : Scope)
    (n : BoundNode) (s₂ : Scope)
    (h : bindAst (.block expressions) s = .ok (n, s₂)) : s₂ = s := by
  rw [bindAst] at h
  cases hb : bindExpressions expressions s with
  | error e => rw [hb, exceptBindError] at h; exact absurd h (by simp)
  | ok r =>
      obtain ⟨bound, exported, s₃⟩ := r
      rw [hb, exceptBindOk] at h
      simp only [Except.ok.injEq, Prod.mk.injEq] at h
      exact h.2.symm

/-- C8 witness: a block defining `b` bound under a scope holding `a` returns
that scope unchanged (so `b` is invisible outside the block). -/
theorem C8_witness :
    bindAst (.block [.let_ "b" (some (.integer 2))]) [("a", .integer 1)] =
      .ok (.block [.let_ "b" (some (.integer 2))]
        [] (.block []), [("a", .integer 1)])
    ∧ ([("a", BoundNode.integer 1)] : Scope) = [("a", BoundNode.integer 1)] :=
  ⟨rfl, C8_block_scope_isolated [.let_ "b" (some (.integer 2))]
    [("a", .integer 1)] _ _ rfl⟩

/-- C9: a successfully bound Call node answers the type-of query with the
callee's full Procedure-type (parameter types and return type), not the
procedure's return type. -/
theorem C9_call_type_is_full_proc_type (callee : Ast) (arguments : List Ast)
    (s : Scope) (n : BoundNode) (s₂ : Scope)
    (h : bindAst (.call callee arguments) s = .ok (n, s₂)) :
    ∃ bc s₁ ps r, bindAst callee s = .ok (bc, s₁) ∧
      bc.getType = .proc ps r ∧ n.getType = .proc ps r := by
  rw [bindAst] at h
  cases hc : bindAst callee s with
  | error e => rw [hc, exceptBindError] at h; exact absurd h (by simp)
  | ok r₀ =>
      obtain ⟨bc, s₁⟩ := r₀
      rw [hc, exceptBindOk] at h
      simp only at h
      split at h
      · rename_i parameterTypes returnType heq
        split at h
        · exact absurd h (by simp)
        · cases ha : bindArguments arguments parameterTypes s₁ with
          | error e => rw [ha, exceptBindError] at h; exact absurd h (by simp)
          | ok r₁ =>
              obtain ⟨bs, s₃⟩ := r₁
              rw [ha, exceptBindOk] at h
              simp only [Except.ok.injEq, Prod.mk.injEq] at h
              exact ⟨bc, s₁, parameterTypes, returnType, rfl, heq,
                by rw [← h.1]; rfl⟩
      · exact absurd h (by simp)

/-- C9 witness: the call `print_integer(1)` binds and its static type is the
full procedure type `(Integer) -> Void`, not `Void`. -/
theorem C9_witness :
    bindAst (.call (.name "print_integer") [.integer 1]) initialNames =
      .ok (.call (.name "print_integer" .printInteger) [.integer 1]
        (.proc [.integer] .void), initialNames)
    ∧ (∃ bc s₁ ps r,
        bindAst (.name "print_integer") initialNames = .ok (bc, s₁) ∧
        bc.getType = .proc ps r ∧
        (BoundNode.call (.name "print_integer" .printInteger) [.integer 1]
          (.proc [.integer] .void)).getType = .proc ps r) :=
  ⟨rfl, C9_call_type_is_full_proc_type (.name "print_integer") [.integer 1]
    initialNames _ _ rfl⟩

/-- C1 counterexample: the claim says that for every program of the form
`let a = v1 { let a = v2 ... }` the inner let binds successfully (shadowing).
On the code it does not: `AstBlock::bind` hands the block a clone of the
parent's map that still contains the outer `a`, and `AstLet::bind` checks
that very map, so the inner `let a = 2` fails with DuplicateDefinition. -/
theorem C1_counterexample :
    bindAst (.file [.let_ "a" (some (.integer 1)),
      .block [.let_ "a" (some (.integer 2))]]) [] =
    .error (.duplicateDefinition "a") := rfl

/-- C1 (amended): binding an Export or Let fails with DuplicateDefinition if
and only if its name already exists in the scope map current at the check
(the map after binding the value); otherwise the node is inserted under its
name.  Because a nested block's map starts as a clone of the parent's map —
ancestor definitions included — redefining a name from an enclosing scope
inside a nested block is also a DuplicateDefinition error: nested-scope
shadowing is rejected, not silently allowed. -/
theorem C1_amended (n : String) (v : Ast) (s : Scope) (bv : BoundNode)
    (s₁ : Scope) (hv : bindAst v s = .ok (bv, s₁)) :
    (bindAst (.let_ n (some v)) s =
      match s₁.lookup n with
      | some _ => .error (.duplicateDefinition n)
      | none => .ok (.let_ n (some bv), (n, BoundNode.let_ n (some bv)) :: s₁))
    ∧ (bindAst (.export_ n v) s =
      match s₁.lookup n with
      | some _ => .error (.duplicateDefinition n)
      | none => .ok (.export_ n bv, (n, BoundNode.export_ n bv) :: s₁))
    ∧ (bindAst (.let_ n none) s =
      match s.lookup n with
      | some _ => .error (.duplicateDefinition n)
      | none => .ok (.let_ n none, (n, BoundNode.let_ n none) :: s)) := by
  refine ⟨?_, ?_, rfl⟩
  · rw [bindAst, hv]; rfl
  · rw [bindAst, hv]; rfl

/-- C1 witness: with `a` already in scope, `let a = 1` fails with
DuplicateDefinition; with a fresh name it succeeds and inserts the node. -/
theorem C1_witness :
    bindAst (.let_ "a" (some (.integer 1))) [("a", .integer 7)] =
      .error (.duplicateDefinition "a")
    ∧ bindAst (.let_ "b" (some (.integer 1))) [("a", .integer 7)] =
      .ok (.let_ "b" (some (.integer 1)),
        [("b", .let_ "b" (some (.integer 1))), ("a", .integer 7)]) := by
  have h₁ := (C1_amended "a" (.integer 1) [("a", .integer 7)] (.integer 1)
    [("a", .integer 7)] rfl).1
  have h₂ := (C1_amended "b" (.integer 1) [("a", .integer 7)] (.integer 1)
    [("a", .integer 7)] rfl).1
  exact ⟨h₁, h₂⟩

/-- C3 (amended): when the executor runs `Call(n)` the n argument cells are
popped most-recent-first and the collected list becomes the callee's initial
stack exactly as collected — it is never un-reversed.  Read top-at-head, the
callee's initial stack is `(stack.take n).reverse`; so if the caller pushed
the arguments `xs` left-to-right (its stack, top first, being `xs.reverse`),
the callee starts on `xs` — the FIRST-pushed argument on top, i.e. the
arguments in reverse push order — whereas the claimed un-reversed transfer
(`specCalleeInitialStack`) would start it on `xs.reverse`.  Only 0- and
1-argument calls behave as the original claim says. -/
theorem C3_amended :
    (∀ (n : Nat) (stack : List BytecodeValue),
      calleeInitialStack n stack = (stack.take n).reverse)
    ∧ (∀ (xs tail : List BytecodeValue),
        calleeInitialStack xs.length (xs.reverse ++ tail) = xs)
    ∧ (∀ (xs tail : List BytecodeValue),
        specCalleeInitialStack xs.length (xs.reverse ++ tail) = xs.reverse) := by
  refine ⟨fun n stack => rfl, fun xs tail => ?_, fun xs tail => ?_⟩
  · rw [calleeInitialStack, ← List.length_reverse xs, List.take_left,
      List.reverse_reverse]
  · rw [specCalleeInitialStack, ← List.length_reverse xs, List.take_left]

/-- C3 counterexample: push 10 then 20 and call a 2-argument procedure whose
body returns its stack top.  The executor yields 10 — the first-pushed
argument is on the callee's stack top.  Had the collected cells been
un-reversed into the callee's initial stack, as the claim states, that stack
(top first) would have been `[20, 10]` and the same body would have yielded
20; the two outcomes differ. -/
theorem C3_counterexample :
    executeBytecode 10 [.push (.proc [.ret]), .push (.int 10), .push (.int 20),
      .call 2, .ret] [] [] = .ret (.int 10) []
    ∧ executeBytecode 10 [.ret] [.int 20, .int 10] [] = .ret (.int 20) []
    ∧ ExecResult.ret (.int 10) [] ≠ ExecResult.ret (.int 20) [] := by
  refine ⟨rfl, rfl, ?_⟩
  simp



/-- Abort behavior of the argument loop of `AstCall::bind`: if every argument
of a prefix binds and type-checks, and the next argument binds but its type
differs from the corresponding parameter type (the loop's `!=`), the loop
stops with ArgumentTypeMismatch no matter what arguments follow. -/
theorem bindArgumentsMismatchAborts (pre : List Ast) (ps : List Ty) (s : Scope)
    (bs : List BoundNode) (s₂ : Scope) (bad : Ast) (p : Ty)
    (post : List Ast) (qs : List Ty) (bb : BoundNode) (s₃ : Scope)
    (hpre : bindArguments pre ps s = .ok (bs, s₂))
    (hlen : pre.length = ps.length)
    (hbad : bindAst bad s₂ = .ok (bb, s₃))
    (hmis : Ty.beq bb.getType p = false) :
    bindArguments (pre ++ bad :: post) (ps ++ p :: qs) s =
      .error (.argumentTypeMismatch p bb.getType) := by
  induction pre generalizing ps s bs s₂ with
  | nil =>
      cases ps with
      | cons t ts => simp at hlen
      | nil =>
          rw [bindArguments] at hpre
          simp only [Except.ok.injEq, Prod.mk.injEq] at hpre
          obtain ⟨hbs, hs⟩ := hpre
          subst hs
          simp only [List.nil_append]
          rw [bindArguments, hbad, exceptBindOk]
          simp only
          rw [if_neg (by simp [hmis])]
  | cons a pre ih =>
      cases ps with
      | nil => simp at hlen
      | cons t ts =>
          rw [bindArguments] at hpre
          cases h₀ : bindAst a s with
          | error e =>
              rw [h₀, exceptBindError] at hpre
              exact absurd hpre (by simp)
          | ok r₀ =>
              obtain ⟨b₀, s₀⟩ := r₀
              rw [h₀, exceptBindOk] at hpre
              simp only at hpre
              by_cases hbt : Ty.beq b₀.getType t = true
              · rw [if_pos hbt] at hpre
                cases h₁ : bindArguments pre ts s₀ with
                | error e =>
                    rw [h₁, exceptBindError] at hpre
                    exact absurd hpre (by simp)
                | ok r₁ =>
                    obtain ⟨bs₁, s₄⟩ := r₁
                    rw [h₁, exceptBindOk] at hpre
                    simp only [Except.ok.injEq, Prod.mk.injEq] at hpre
                    obtain ⟨hb, hs⟩ := hpre
                    subst hs
                    have hlen₁ : pre.length = ts.length := by simpa using hlen
                    rw [List.cons_append, List.cons_append, bindArguments, h₀,
                      exceptBindOk]
                    simp only
                    rw [if_pos hbt, ih ts s₀ bs₁ s₄ h₁ hlen₁ hbad,
                      exceptBindError]
              · rw [if_neg hbt] at hpre
                exact absurd hpre (by simp)

/-- C7: binding a Call checks its preconditions in a fixed order and raises
exactly the first violated one's error: a non-Procedure callee type gives
NotCallable whatever the arguments are; with a Procedure-type callee, an
argument count differing from the parameter count gives ArityMismatch with
the expected and actual counts, again whatever the arguments are (none is
bound); with matching counts, arguments are bound and checked left-to-right
and the first type mismatch aborts with ArgumentTypeMismatch, the remaining
arguments staying unchecked (the error does not depend on them). -/
theorem C7_call_error_order (callee : Ast) (s : Scope) (bc : BoundNode)
    (s₁ : Scope) (hc : bindAst callee s = .ok (bc, s₁)) :
    ((∀ ps r, bc.getType ≠ .proc ps r) →
      ∀ arguments, bindAst (.call callee arguments) s =
        .error (.notCallable bc.getType))
    ∧ (∀ ps r, bc.getType = .proc ps r →
        ∀ arguments, ps.length ≠ arguments.length →
          bindAst (.call callee arguments) s =
            .error (.arityMismatch ps.length arguments.length))
    ∧ (∀ psPre p psPost r pre bs s₂ bad bb s₃ post,
        bc.getType = .proc (psPre ++ p :: psPost) r →
        pre.length = psPre.length →
        post.length = psPost.length →
        bindArguments pre psPre s₁ = .ok (bs, s₂) →
        bindAst bad s₂ = .ok (bb, s₃) →
        Ty.beq bb.getType p = false →
        bindAst (.call callee (pre ++ bad :: post)) s =
          .error (.argumentTypeMismatch p bb.getType)) := by
  refine ⟨?_, ?_, ?_⟩
  · intro hnp arguments
    cases ht : bc.getType with
    | proc ps r => exact absurd ht (hnp ps r)
    | void => rw [bindAst, hc, exceptBindOk]; simp only [ht]
    | type => rw [bindAst, hc, exceptBindOk]; simp only [ht]
    | integer => rw [bindAst, hc, exceptBindOk]; simp only [ht]
    | block ts => rw [bindAst, hc, exceptBindOk]; simp only [ht]
  · intro ps r ht arguments hlen
    rw [bindAst, hc, exceptBindOk]
    simp only [ht]
    rw [if_pos hlen]
  · intro psPre p psPost r pre bs s₂ bad bb s₃ post ht hlenPre hlenPost
      hargs hbad hmis
    rw [bindAst, hc, exceptBindOk]
    simp only [ht]
    rw [if_neg (by simp [List.length_append, hlenPre, hlenPost])]
    rw [bindArgumentsMismatchAborts pre psPre s₁ bs s₂ bad p post psPost bb s₃
      hargs hlenPre hbad hmis, exceptBindError]

/-- C7 witness: the three error cases at concrete inputs — calling the
integer literal 1 is NotCallable(Integer); calling the one-parameter
`print_integer` with zero arguments is ArityMismatch(1, 0); calling it with
the procedure-typed argument `print_integer` is ArgumentTypeMismatch
expecting Integer. -/
theorem C7_witness :
    bindAst (.call (.integer 1) []) [] = .error (.notCallable .integer)
    ∧ bindAst (.call (.name "print_integer") []) initialNames =
      .error (.arityMismatch 1 0)
    ∧ bindAst (.call (.name "print_integer") [.name "print_integer"])
        initialNames =
      .error (.argumentTypeMismatch .integer (.proc [.integer] .void)) := by
  refine ⟨?_, ?_, ?_⟩
  · exact (C7_call_error_order (.integer 1) [] (.integer 1) [] rfl).1
      (fun ps r h => Ty.noConfusion h) []
  · exact (C7_call_error_order (.name "print_integer") initialNames
      (.name "print_integer" .printInteger) initialNames rfl).2.1
      [.integer] .void rfl [] (by decide)
  · exact (C7_call_error_order (.name "print_integer") initialNames
      (.name "print_integer" .printInteger) initialNames rfl).2.2
      [] .integer [] .void [] [] initialNames (.name "print_integer")
      (.name "print_integer" .printInteger) initialNames []
      rfl rfl rfl rfl rfl rfl
